import Mathlib

/-!
Verification of the boxedpy sandbox library against its specification.

The definitions below are a shallow embedding of the Go sources:
`sandbox/proxy.go` (network filter, SOCKS5 handshake, proxy lifecycle),
`sandbox/exec.go` (mount set, path canonicalization), `exec_linux.go`
(bubblewrap argument generation) and `sandbox/exec_darwin.go` (seatbelt
argument generation).  Host effects (Getwd, LookPath, EvalSymlinks, Stat,
Lstat, MkdirTemp, time, randomness) are passed in explicitly through
environment records, so every function is pure and executable.
-/

/-! ## Data model  (sandbox/policy.go) -/

/-- A filesystem path binding into the sandbox (Go struct `Mount`). -/
structure Mount where
  Source : String
  Target : String
deriving DecidableEq, Repr

/-- The declarative sandbox policy (Go struct `Policy`). -/
structure Policy where
  ReadOnlyMounts : List Mount
  ReadWriteMounts : List Mount
  WorkDir : String
  ProvideTmp : Bool
  AllowNetwork : Bool
  AllowLocalhostOnly : Bool
  AllowSharedNamespaces : Bool
  AllowParentSurvival : Bool
  AllowSessionControl : Bool
deriving Repr

/-! ## Network filter  (sandbox/proxy.go lines 17-30, 377-391) -/

/-- Allowed and denied network destinations (Go struct `NetworkFilter`). -/
structure NetworkFilter where
  AllowHosts : List String
  DenyHosts : List String
deriving Repr

/-- Embedding of `(*NetworkProxy).isAllowed` from sandbox/proxy.go lines
377-391.  The Go receiver's `filter *NetworkFilter` field is the `Option`
argument (`none` models a nil filter).  The body is the placeholder found in
the source: after the nil-filter check and the empty-lists check it returns
true unconditionally ("Temporary: allow all if filter exists (will be
properly implemented in Phase 4)"). -/
def isAllowed (filter : Option NetworkFilter) (_host _port : String) : Bool :=
  match filter with
  | none => true
  | some f =>
    if f.AllowHosts.isEmpty && f.DenyHosts.isEmpty then true
    else true

/-! ## SOCKS5 handshake  (sandbox/proxy.go lines 434-474) -/

/-- Embedding of `socks5Handshake`.  The connection is modelled by the list
of bytes available to read; the result is the pair of the bytes written back
to the client and a success flag (`true` exactly when the Go function
returns a nil error, assuming the final write succeeds).  Mirroring the
source: read version and nmethods, reject a version other than 5 before
reading the method bytes, then look for method 0x00 in the offered set;
write `[0x05, 0x00]` on success and `[0x05, 0xFF]` when no acceptable
method is offered.  A short read (version check aside) fails without
writing anything. -/
def socks5Handshake (input : List Nat) : List Nat × Bool :=
  match input with
  | v :: n :: rest =>
    if v = 5 then
      if rest.length < n then ([], false)
      else
        let methods := rest.take n
        if methods.contains 0 then ([5, 0], true)
        else ([5, 255], false)
    else ([], false)
  | _ => ([], false)

/-! ## Proxy close  (sandbox/proxy.go lines 157-198) -/

/-- The mutable state of a `NetworkProxy` relevant to `Close`, together with
a log of the shutdown and cleanup actions performed so far.  The `sync.Once`
guard is the `closeOnceDone` flag; the nil checks on the listeners and the
HTTP server are the three `has*` flags. -/
structure NetworkProxyState where
  socksTmpDir : String
  hasHttpLn : Bool
  hasSocksLn : Bool
  hasHttpServer : Bool
  closeOnceDone : Bool
  log : List String
deriving Repr

/-- The sequence of shutdown and cleanup actions the body of `Close`
performs on a given proxy state (the closure passed to `closeOnce.Do`). -/
def closeBodyLog (p : NetworkProxyState) : List String :=
  ["close(closed)"] ++
  (if p.hasHttpLn then ["httpLn.Close"] else []) ++
  (if p.hasSocksLn then ["socksLn.Close"] else []) ++
  (if p.hasHttpServer then ["httpServer.Shutdown"] else []) ++
  ["wg.Wait"] ++
  (if p.socksTmpDir ≠ "" then ["RemoveAll " ++ p.socksTmpDir] else [])

/-- Embedding of `(*NetworkProxy).Close`.  `removeAll` is the effect of
`os.RemoveAll` (`none` on success, `some msg` on failure).  `closeOnce.Do`
runs its body only when the flag is still unset; `closeErr` is set only by
the scratch-directory cleanup. -/
def NetworkProxyState.Close (removeAll : String → Option String)
    (p : NetworkProxyState) : NetworkProxyState × Option String :=
  if p.closeOnceDone then (p, none)
  else
    let closeErr := if p.socksTmpDir ≠ "" then removeAll p.socksTmpDir else none
    ({ p with closeOnceDone := true, log := p.log ++ closeBodyLog p }, closeErr)

/-! ## Mount set  (sandbox/exec.go lines 146-199) -/

/-- Embedding of `mountSet`: tracked `(flag, target)` keys plus the parallel
insertion-ordered target list (Go fields `entries` and `targets`; the Go map
is modelled by a key list queried with `contains`). -/
structure MountSet where
  entries : List String
  targets : List String
deriving Repr

/-- Embedding of `mountSet.key`: the lookup key for a (flag, target) pair. -/
def MountSet.key (flag target : String) : String :=
  flag ++ "\x00" ++ target

/-- Embedding of `newMountSet`. -/
def newMountSet : MountSet := { entries := [], targets := [] }

/-- Embedding of `mountSet.has`. -/
def MountSet.has (m : MountSet) (flag target : String) : Bool :=
  m.entries.contains (MountSet.key flag target)

/-- Embedding of `mountSet.add`: inserting a key already present is a no-op,
otherwise the key and the target are appended. -/
def MountSet.add (m : MountSet) (flag target : String) : MountSet :=
  if m.entries.contains (MountSet.key flag target) then m
  else { entries := m.entries ++ [MountSet.key flag target],
         targets := m.targets ++ [target] }

/-- Embedding of `canonicalPath` from sandbox/exec.go: reject the empty
path, then resolve through the host's symlink evaluation, whose behaviour is
the function `canon` (`none` models an `EvalSymlinks` failure). -/
def canonicalPath (canon : String → Option String) (path : String) :
    Except String String :=
  if path = "" then Except.error "empty path"
  else
    match canon path with
    | some c => Except.ok c
    | none => Except.error ("canonicalize " ++ path)

/-! ## Linux launcher  (exec_linux.go, src/unnamed/part_003) -/

/-- The Go `mount` struct of exec_linux.go: a bubblewrap binding. -/
structure BwrapMount where
  flag : String
  source : String
  target : String
deriving DecidableEq, Repr

/-- The host-environment effects the Linux launcher consults: `os.Getwd`,
`exec.LookPath("bwrap")`, `filepath.EvalSymlinks`, `os.Lstat`-is-a-symlink,
and `os.Stat`-succeeds.  `none` models failure of the corresponding call. -/
structure LinuxEnv where
  getwd : Option String
  bwrapPath : Option String
  canonical : String → Option String
  isSymlink : String → Bool
  pathExists : String → Bool

/-- Embedding of `ensurePath`: a path must be non-empty and stat-able. -/
def ensurePath (pathExists : String → Bool) (path : String) :
    Except String Unit :=
  if path = "" then Except.error "sandbox: empty path"
  else if pathExists path then Except.ok ()
  else Except.error ("sandbox: stat " ++ path)

/-- Embedding of `appendMount` (exec_linux.go lines 164-180): reject empty
paths; skip the entry when its (flag, target) pair is already in the mount
set; verify the source exists; otherwise emit `flag source target` and
record the pair. -/
def appendMount (pathExists : String → Bool) (args : List String)
    (seen : MountSet) (entry : BwrapMount) :
    Except String (List String × MountSet) :=
  if entry.source = "" ∨ entry.target = "" then
    Except.error "sandbox: mount requires non-empty paths"
  else if seen.has entry.flag entry.target then Except.ok (args, seen)
  else
    match ensurePath pathExists entry.source with
    | Except.error e => Except.error e
    | Except.ok _ =>
      Except.ok (args ++ [entry.flag, entry.source, entry.target],
        seen.add entry.flag entry.target)

/-- Instrumented `appendMount`: identical to `appendMount` except that it
additionally reports the list of entries it emitted (empty or a
singleton), so that the emitted launch plan can be reasoned about. -/
def appendMountM (pathExists : String → Bool) (args : List String)
    (seen : MountSet) (entry : BwrapMount) :
    Except String (List String × MountSet × List BwrapMount) :=
  if entry.source = "" ∨ entry.target = "" then
    Except.error "sandbox: mount requires non-empty paths"
  else if seen.has entry.flag entry.target then Except.ok (args, seen, [])
  else
    match ensurePath pathExists entry.source with
    | Except.error e => Except.error e
    | Except.ok _ =>
      Except.ok (args ++ [entry.flag, entry.source, entry.target],
        seen.add entry.flag entry.target, [entry])

/-- The per-mount loop bodies of `bubblewrapArgs` (lines 67-97): for each
policy mount, canonicalize source and target and append the binding with
the given flag ("--ro-bind" for read-only, "--bind" for read-write). -/
def processMounts (e : LinuxEnv) (flag : String) (ms : List Mount)
    (args : List String) (seen : MountSet) :
    Except String (List String × MountSet) :=
  match ms with
  | [] => Except.ok (args, seen)
  | m :: rest =>
    match canonicalPath e.canonical m.Source with
    | Except.error msg => Except.error msg
    | Except.ok canonSrc =>
      match canonicalPath e.canonical m.Target with
      | Except.error msg => Except.error msg
      | Except.ok canonTgt =>
        match appendMount e.pathExists args seen
            { flag := flag, source := canonSrc, target := canonTgt } with
        | Except.error msg => Except.error msg
        | Except.ok (args1, seen1) => processMounts e flag rest args1 seen1

/-- Instrumented `processMounts`, collecting the emitted entries. -/
def processMountsM (e : LinuxEnv) (flag : String) (ms : List Mount)
    (args : List String) (seen : MountSet) :
    Except String (List String × MountSet × List BwrapMount) :=
  match ms with
  | [] => Except.ok (args, seen, [])
  | m :: rest =>
    match canonicalPath e.canonical m.Source with
    | Except.error msg => Except.error msg
    | Except.ok canonSrc =>
      match canonicalPath e.canonical m.Target with
      | Except.error msg => Except.error msg
      | Except.ok canonTgt =>
        match appendMountM e.pathExists args seen
            { flag := flag, source := canonSrc, target := canonTgt } with
        | Except.error msg => Except.error msg
        | Except.ok (args1, seen1, em1) =>
          match processMountsM e flag rest args1 seen1 with
          | Except.error msg => Except.error msg
          | Except.ok (args2, seen2, em2) =>
            Except.ok (args2, seen2, em1 ++ em2)

/-- The two caller-provided mount loops of `bubblewrapArgs` in order:
read-only mounts with "--ro-bind", then read-write mounts with "--bind". -/
def callerMountArgs (e : LinuxEnv) (p : Policy) (args : List String) :
    Except String (List String × MountSet) :=
  match processMounts e "--ro-bind" p.ReadOnlyMounts args newMountSet with
  | Except.error msg => Except.error msg
  | Except.ok (args1, seen1) =>
    processMounts e "--bind" p.ReadWriteMounts args1 seen1

/-- Instrumented `callerMountArgs`. -/
def callerMountArgsM (e : LinuxEnv) (p : Policy) (args : List String) :
    Except String (List String × MountSet × List BwrapMount) :=
  match processMountsM e "--ro-bind" p.ReadOnlyMounts args newMountSet with
  | Except.error msg => Except.error msg
  | Except.ok (args1, seen1, em1) =>
    match processMountsM e "--bind" p.ReadWriteMounts args1 seen1 with
    | Except.error msg => Except.error msg
    | Except.ok (args2, seen2, em2) => Except.ok (args2, seen2, em1 ++ em2)

/-- Lines 106-108 of exec_linux.go: isolated tmpfs when requested. -/
def tmpfsArgs (p : Policy) : List String :=
  if p.ProvideTmp then ["--tmpfs", "/tmp"] else []

/-- The fixed symlink table of exec_linux.go lines 112-120. -/
def commonSymlinks : List (String × String) :=
  [("/bin", "usr/bin"), ("/lib", "usr/lib"),
   ("/lib64", "usr/lib64"), ("/sbin", "usr/sbin")]

/-- Lines 121-125: recreate each common symlink present on the host. -/
def symlinkArgs (e : LinuxEnv) : List String :=
  (commonSymlinks.map (fun sl =>
    if e.isSymlink sl.1 then ["--symlink", sl.2, sl.1] else [])).flatten

/-- Lines 127-135: namespace isolation flags.  Unshare all namespaces by
default; when shared namespaces are allowed but network is not, unshare
only the network namespace. -/
def nsFlags (p : Policy) : List String :=
  if ¬ p.AllowSharedNamespaces then ["--unshare-all"]
  else if ¬ p.AllowNetwork then ["--unshare-net"]
  else []

/-- Lines 137-143: process lifecycle flags. -/
def lifecycleFlags (p : Policy) : List String :=
  (if ¬ p.AllowParentSurvival then ["--die-with-parent"] else []) ++
  (if ¬ p.AllowSessionControl then ["--new-session"] else [])

/-- The block of arguments `bubblewrapArgs` appends between the caller
mounts and the working-directory binding: essential virtual filesystems,
optional tmpfs, host symlink recreation, namespace and lifecycle flags
(lines 99-143, in source order). -/
def bwrapMiddle (e : LinuxEnv) (p : Policy) : List String :=
  ["--proc", "/proc", "--dev", "/dev"] ++ tmpfsArgs p ++ symlinkArgs e ++
    nsFlags p ++ lifecycleFlags p

/-- The working-directory resolution at the top of `bubblewrapArgs`
(lines 49-57): `Policy.WorkDir` if set, otherwise `os.Getwd`. -/
def bwrapWd (e : LinuxEnv) (p : Policy) : Except String String :=
  if p.WorkDir = "" then
    match e.getwd with
    | some w => Except.ok w
    | none => Except.error "getwd"
  else Except.ok p.WorkDir

/-- Embedding of `bubblewrapArgs` (exec_linux.go lines 48-161): resolve the
working directory and the bwrap binary, emit caller mounts through the
mount set, the fixed middle block, then canonicalize and bind the working
directory, `--chdir`, the `--` separator, and the program argv.  The Go
parameters `name` and `envv` are unused by the body and omitted here. -/
def bubblewrapArgs (e : LinuxEnv) (p : Policy) (argv : List String) :
    Except String (List String) :=
  match bwrapWd e p with
  | Except.error msg => Except.error msg
  | Except.ok wd =>
    match e.bwrapPath with
    | none => Except.error "lookpath bwrap"
    | some bw =>
      match callerMountArgs e p [bw] with
      | Except.error msg => Except.error msg
      | Except.ok (args2, seen2) =>
        match canonicalPath e.canonical wd with
        | Except.error msg => Except.error msg
        | Except.ok workdir =>
          match appendMount e.pathExists (args2 ++ bwrapMiddle e p) seen2
              { flag := "--bind", source := workdir, target := workdir } with
          | Except.error msg => Except.error msg
          | Except.ok (args4, _) =>
            Except.ok (args4 ++ ["--chdir", workdir, "--"] ++ argv)

/-- Instrumented `bubblewrapArgs`: the same computation, additionally
returning the list of mount entries it emitted into the plan. -/
def bubblewrapArgsM (e : LinuxEnv) (p : Policy) (argv : List String) :
    Except String (List String × List BwrapMount) :=
  match bwrapWd e p with
  | Except.error msg => Except.error msg
  | Except.ok wd =>
    match e.bwrapPath with
    | none => Except.error "lookpath bwrap"
    | some bw =>
      match callerMountArgsM e p [bw] with
      | Except.error msg => Except.error msg
      | Except.ok (args2, seen2, em2) =>
        match canonicalPath e.canonical wd with
        | Except.error msg => Except.error msg
        | Except.ok workdir =>
          match appendMountM e.pathExists (args2 ++ bwrapMiddle e p) seen2
              { flag := "--bind", source := workdir, target := workdir } with
          | Except.error msg => Except.error msg
          | Except.ok (args4, _, em4) =>
            Except.ok (args4 ++ ["--chdir", workdir, "--"] ++ argv,
              em2 ++ em4)

/-- The lookup key of an emitted bubblewrap mount entry. -/
def bwrapMountKey (m : BwrapMount) : String :=
  MountSet.key m.flag m.target

/-- The four namespace and lifecycle flags of exec_linux.go lines 127-143. -/
def nsLifeFlagStrs : List String :=
  ["--unshare-all", "--unshare-net", "--die-with-parent", "--new-session"]

/-! ## macOS launcher  (sandbox/exec_darwin.go) -/

/-- The host-environment effects the macOS launcher consults: `os.Getwd`,
`filepath.EvalSymlinks`, `os.MkdirTemp` (the directory it would create),
`time.Now().Unix()`, the random suffix from `randomString(8)`, and the
embedded base profile `seatbelt_base_policy.sbpl`. -/
structure DarwinEnv where
  getwd : Option String
  canonical : String → Option String
  mkdirTemp : Option String
  nowUnix : Nat
  randSuffix : String
  basePolicy : String

/-- The path of the Seatbelt evaluator (Go constant `seatbeltPath`). -/
def seatbeltPath : String := "/usr/bin/sandbox-exec"

/-- The repeated guarded insertion in `seatbeltArgs`:
`if !set.has("", p) { set.add("", p); paths = append(paths, p) }`. -/
def addPath (set : MountSet) (paths : List String) (p : String) :
    MountSet × List String :=
  if set.has "" p then (set, paths)
  else (set.add "" p, paths ++ [p])

/-- The ReadOnlyMounts loop of `seatbeltArgs` (lines 85-94): canonicalize
each source and insert it into the readable set. -/
def collectReadOnly (canon : String → Option String) (ms : List Mount)
    (rset : MountSet) (rpaths : List String) :
    Except String (MountSet × List String) :=
  match ms with
  | [] => Except.ok (rset, rpaths)
  | m :: rest =>
    match canonicalPath canon m.Source with
    | Except.error msg => Except.error msg
    | Except.ok canonSrc =>
      let (rset1, rpaths1) := addPath rset rpaths canonSrc
      collectReadOnly canon rest rset1 rpaths1

/-- The ReadWriteMounts loop of `seatbeltArgs` (lines 102-115): canonicalize
each source and insert it into the writable set and then the readable
set. -/
def collectReadWrite (canon : String → Option String) (ms : List Mount)
    (wset : MountSet) (wpaths : List String) (rset : MountSet)
    (rpaths : List String) :
    Except String (MountSet × List String × MountSet × List String) :=
  match ms with
  | [] => Except.ok (wset, wpaths, rset, rpaths)
  | m :: rest =>
    match canonicalPath canon m.Source with
    | Except.error msg => Except.error msg
    | Except.ok canonSrc =>
      let (wset1, wpaths1) := addPath wset wpaths canonSrc
      let (rset1, rpaths1) := addPath rset rpaths canonSrc
      collectReadWrite canon rest wset1 wpaths1 rset1 rpaths1

/-- The temp-directory block of `seatbeltArgs` (lines 131-155): when
`ProvideTmp` is set, create and canonicalize a fresh temp directory and
insert it into the writable and readable sets; otherwise the temp directory
stays empty.  Returns (tmpDir, wset, wpaths, rset, rpaths). -/
def provideTmpDarwin (e : DarwinEnv) (p : Policy) (wset : MountSet)
    (wpaths : List String) (rset : MountSet) (rpaths : List String) :
    Except String (String × MountSet × List String × MountSet × List String) :=
  if p.ProvideTmp then
    match e.mkdirTemp with
    | none => Except.error "create temp directory"
    | some td =>
      match canonicalPath e.canonical td with
      | Except.error msg => Except.error msg
      | Except.ok canonTmp =>
        let (wset1, wpaths1) := addPath wset wpaths canonTmp
        let (rset1, rpaths1) := addPath rset rpaths canonTmp
        Except.ok (canonTmp, wset1, wpaths1, rset1, rpaths1)
  else Except.ok ("", wset, wpaths, rset, rpaths)

/-- The `(subpath (param "<kind><i>"))` lines of one access rule. -/
def paramSubpathRules (kind : String) (n : Nat) : String :=
  String.join ((List.range n).map (fun i =>
    "  (subpath (param \"" ++ kind ++ toString i ++ "\"))\n"))

/-- The `file-read*` rule of `seatbeltArgs` (lines 169-175). -/
def readRules (paths : List String) (tag : String) : String :=
  if paths.isEmpty then ""
  else "(allow file-read*\n" ++
    paramSubpathRules "READABLE_ROOT_" paths.length ++
    "  (with message \"" ++ tag ++ "-read\"))\n"

/-- The `file-write*` rule of `seatbeltArgs` (lines 178-184). -/
def writeRules (paths : List String) (tag : String) : String :=
  if paths.isEmpty then ""
  else "(allow file-write*\n" ++
    paramSubpathRules "WRITABLE_ROOT_" paths.length ++
    "  (with message \"" ++ tag ++ "-write\"))\n"

/-- The network rules of `seatbeltArgs` (lines 187-201): full network when
`AllowNetwork`, localhost-gated rules when only `AllowLocalhostOnly`,
nothing otherwise. -/
def networkRules (p : Policy) : String :=
  if p.AllowNetwork then
    "(allow network-outbound)\n(allow network-inbound)\n"
  else if p.AllowLocalhostOnly then
    "(allow network-outbound\n  (remote ip \"localhost:*\"))\n" ++
    "(allow network-inbound\n  (local ip \"localhost:*\"))\n"
  else ""

/-- The `-D<kind><i>=<path>` parameter bindings (lines 209-216). -/
def paramDefs (kind : String) (paths : List String) : List String :=
  paths.enum.map (fun ip => "-D" ++ kind ++ toString ip.1 ++ "=" ++ ip.2)

/-- The working-directory resolution of `seatbeltArgs` (lines 71-78). -/
def darwinWd (e : DarwinEnv) (p : Policy) : Except String String :=
  if p.WorkDir = "" then
    match e.getwd with
    | some w => Except.ok w
    | none => Except.error "getwd"
  else Except.ok p.WorkDir

/-- Embedding of `seatbeltArgs` (exec_darwin.go lines 69-223).  Returns
(argument list, temp directory, canonicalized working directory), matching
the Go result `(args, tmpDir, workDir)`.  The Go parameters `name` and
`envv` are unused by the body and omitted here. -/
def seatbeltArgs (e : DarwinEnv) (p : Policy) (argv : List String) :
    Except String (List String × String × String) :=
  match darwinWd e p with
  | Except.error msg => Except.error msg
  | Except.ok wd =>
    match collectReadOnly e.canonical p.ReadOnlyMounts newMountSet [] with
    | Except.error msg => Except.error msg
    | Except.ok (rset, rpaths) =>
      match collectReadWrite e.canonical p.ReadWriteMounts
          newMountSet [] rset rpaths with
      | Except.error msg => Except.error msg
      | Except.ok (wset, wpaths, rset1, rpaths1) =>
        match canonicalPath e.canonical wd with
        | Except.error msg => Except.error msg
        | Except.ok workdir =>
          let (wset2, wpaths2) := addPath wset wpaths workdir
          let (rset2, rpaths2) := addPath rset1 rpaths1 workdir
          match provideTmpDarwin e p wset2 wpaths2 rset2 rpaths2 with
          | Except.error msg => Except.error msg
          | Except.ok (tmpDir, _wset3, wpaths3, _rset3, rpaths3) =>
            let logTag := "boxedpy-" ++ toString e.nowUnix ++ "-" ++
              e.randSuffix
            let fullPolicy :=
              (e.basePolicy.replace "boxedpy-LOGTAG" logTag) ++ "\n" ++
              readRules rpaths3 logTag ++ writeRules wpaths3 logTag ++
              networkRules p
            Except.ok ([seatbeltPath, "-p", fullPolicy] ++
              paramDefs "READABLE_ROOT_" rpaths3 ++
              paramDefs "WRITABLE_ROOT_" wpaths3 ++
              ["--"] ++ argv, tmpDir, workdir)

/-- The fields of the `exec.Cmd` that the macOS `commandContext`
configures. -/
structure DarwinCmd where
  path : String
  args : List String
  env : List String
  dir : String
deriving Repr

/-- Embedding of the macOS `commandContext` (exec_darwin.go lines 23-61):
build the seatbelt arguments, configure the command with the parent
environment `envv` and the canonicalized working directory, and append a
`TMPDIR` variable only when a temp directory was created. -/
def commandContextDarwin (e : DarwinEnv) (envv : List String) (p : Policy)
    (name : String) (arg : List String) : Except String DarwinCmd :=
  match seatbeltArgs e p (name :: arg) with
  | Except.error msg => Except.error ("seatbelt: build args: " ++ msg)
  | Except.ok (sargs, tmpDir, workDir) =>
    let cmd : DarwinCmd :=
      { path := seatbeltPath, args := sargs.drop 1, env := envv,
        dir := workDir }
    if tmpDir ≠ "" then
      Except.ok { cmd with env := cmd.env ++ ["TMPDIR=" ++ tmpDir] }
    else Except.ok cmd

/-! ## Concrete inputs used by witnesses and counterexamples -/

/-- A Linux host environment where every path canonicalizes to itself. -/
def cexEnv : LinuxEnv :=
  { getwd := some "/w", bwrapPath := some "/usr/bin/bwrap",
    canonical := fun s => some s, isSymlink := fun _ => false,
    pathExists := fun _ => true }

/-- The zero-value policy with an explicit working directory. -/
def cexPolicy : Policy :=
  { ReadOnlyMounts := [], ReadWriteMounts := [], WorkDir := "/w",
    ProvideTmp := false, AllowNetwork := false, AllowLocalhostOnly := false,
    AllowSharedNamespaces := false, AllowParentSurvival := false,
    AllowSessionControl := false }

/-- The bwrap argument vector generated for `cexEnv`, `cexPolicy` and the
program "/bin/echo". -/
def cexArgsList : List String :=
  ["/usr/bin/bwrap", "--proc", "/proc", "--dev", "/dev", "--unshare-all",
   "--die-with-parent", "--new-session", "--bind", "/w", "/w", "--chdir",
   "/w", "--", "/bin/echo"]

/-- A Linux host environment where every path canonicalizes to "/w". -/
def wEnv : LinuxEnv :=
  { getwd := some "/w", bwrapPath := some "/usr/bin/bwrap",
    canonical := fun _ => some "/w", isSymlink := fun _ => false,
    pathExists := fun _ => true }

/-- A policy with one read-only mount. -/
def wPolicy : Policy :=
  { ReadOnlyMounts := [{ Source := "/usr", Target := "/usr" }],
    ReadWriteMounts := [], WorkDir := "/home", ProvideTmp := false,
    AllowNetwork := false, AllowLocalhostOnly := false,
    AllowSharedNamespaces := false, AllowParentSurvival := false,
    AllowSessionControl := false }

/-- A policy containing a duplicated read-only mount. -/
def dupPolicy : Policy :=
  { ReadOnlyMounts := [{ Source := "/usr", Target := "/usr" },
      { Source := "/usr", Target := "/usr" }],
    ReadWriteMounts := [{ Source := "/data", Target := "/data" }],
    WorkDir := "/w", ProvideTmp := false, AllowNetwork := false,
    AllowLocalhostOnly := false, AllowSharedNamespaces := false,
    AllowParentSurvival := false, AllowSessionControl := false }

/-- A macOS host environment where every path canonicalizes to itself. -/
def dEnv : DarwinEnv :=
  { getwd := some "/w", canonical := fun s => some s,
    mkdirTemp := some "/tmp/boxedpy-sandbox-1", nowUnix := 1700000000,
    randSuffix := "abcd1234",
    basePolicy := "(version 1)\n(deny default (with message \"boxedpy-LOGTAG\"))" }

/-- A macOS policy with `ProvideTmp` off and one mount of each kind. -/
def dPolicy : Policy :=
  { ReadOnlyMounts := [{ Source := "/usr", Target := "/usr" }],
    ReadWriteMounts := [{ Source := "/data", Target := "/data" }],
    WorkDir := "/w", ProvideTmp := false, AllowNetwork := false,
    AllowLocalhostOnly := false, AllowSharedNamespaces := false,
    AllowParentSurvival := false, AllowSessionControl := false }

/-- `dPolicy` with every mount Target replaced by a different path. -/
def dPolicyAltTargets : Policy :=
  { ReadOnlyMounts := [{ Source := "/usr", Target := "/other-usr" }],
    ReadWriteMounts := [{ Source := "/data", Target := "/other-data" }],
    WorkDir := "/w", ProvideTmp := false, AllowNetwork := false,
    AllowLocalhostOnly := false, AllowSharedNamespaces := false,
    AllowParentSurvival := false, AllowSessionControl := false }

/-- The command produced by the macOS launcher for `dEnv`, `dPolicy`, the
parent environment ["PATH=/usr/bin"] and the program "/venv/bin/python"
(extracted from the successful run). -/
def c8cmd : DarwinCmd :=
  ((commandContextDarwin dEnv ["PATH=/usr/bin"] dPolicy
    "/venv/bin/python" []).toOption).getD
    { path := "", args := [], env := [], dir := "" }

/-- A concrete proxy state used to witness the Close idempotence theorem:
a proxy with a scratch directory, both listeners and the HTTP server
present, not yet closed. -/
def sampleProxyState : NetworkProxyState :=
  { socksTmpDir := "/tmp/boxedpy-proxy-1", hasHttpLn := true,
    hasSocksLn := true, hasHttpServer := true, closeOnceDone := false,
    log := [] }

/-- A concrete RemoveAll effect that always succeeds. -/
def sampleRemoveAll : String → Option String := fun _ => none

/-! ## Claims C1, C2, C9: the filter decision rule -/

/-- Claim C1 (code bug evidence): the spec requires `isAllowed` to return
false whenever a deny pattern matches the destination, but the code's
placeholder returns true for host "evil.com" port "80" under a filter whose
deny list is exactly ["evil.com"] (the repository's own test
`TestNetworkFilter_DenyList` asserts this very call returns false). -/
theorem C1_deny_ignored :
    isAllowed (some { AllowHosts := [], DenyHosts := ["evil.com"] })
      "evil.com" "80" = true := rfl

/-- Claim C2 (code bug evidence): the spec requires a filter with allow list
exactly ["*.example.com"] to reject host "example.com" (a wildcard must not
match its own base domain), but the code's placeholder returns true (the
repository's test `TestNetworkFilter_AllowList` asserts the analogous call
returns false). -/
theorem C2_wildcard_ignored :
    isAllowed (some { AllowHosts := ["*.example.com"], DenyHosts := [] })
      "example.com" "80" = true := rfl

/-- Claim C9: a proxy whose filter is nil allows every destination
unconditionally: for every host and port, `isAllowed` on a nil filter
returns true. -/
theorem C9_nil_filter_allows_all (host port : String) :
    isAllowed none host port = true := rfl

/-! ## Claim C7: SOCKS5 greeting -/

/-- Claim C7 counterexample: the claim states that on any handshake failure
(version not 5, or 0x00 not offered) the server replies [0x05, 0xFF].  On
the greeting [0x04, 0x01, 0x00] (version 4) the handshake fails but the
server writes nothing at all, not [0x05, 0xFF]. -/
theorem C7_counterexample :
    socks5Handshake [4, 1, 0] = ([], false) ∧
    (socks5Handshake [4, 1, 0]).1 ≠ [5, 255] := by
  constructor
  · rfl
  · decide

/-- Claim C7 (amended): for every complete greeting (version byte v,
nmethods byte n, n method bytes, possibly followed by further input), the
server replies [0x05, 0x00] and succeeds exactly when v = 5 and method 0x00
is among the offered methods; when v = 5 but 0x00 is not offered it replies
[0x05, 0xFF] and fails; when v is not 5 it fails without writing any
reply. -/
theorem C7_greeting (v n : Nat) (methods rest : List Nat)
    (h : methods.length = n) :
    socks5Handshake (v :: n :: (methods ++ rest)) =
      (if v = 5 then
        (if methods.contains 0 then ([5, 0], true) else ([5, 255], false))
      else ([], false)) := by
  by_cases hv : v = 5
  · have htake : (methods ++ rest).take n = methods := by
      rw [← h]
      exact List.take_left methods rest
    simp only [socks5Handshake, hv, htake, if_true, ite_true]
    have hlen : ¬ (methods ++ rest).length < n := by
      simp only [List.length_append]
      omega
    rw [if_neg hlen]
  · simp [socks5Handshake, hv]

/-- Witness for C7_greeting: the complete greeting [5, 1, 0] (version 5,
one method, no-auth offered) yields the success reply [0x05, 0x00]. -/
theorem C7_greeting_witness :
    ([0] : List Nat).length = 1 ∧
    socks5Handshake (5 :: 1 :: (([0] : List Nat) ++ [])) =
      (if (5 : Nat) = 5 then
        (if ([0] : List Nat).contains 0 then (([5, 0] : List Nat), true)
         else (([5, 255] : List Nat), false))
      else (([] : List Nat), false)) := by
  exact ⟨by decide, C7_greeting 5 1 [0] [] (by decide)⟩

/-! ## Claim C6: Close is idempotent -/

/-- Claim C6: `Close` is idempotent.  On a proxy that has not been closed,
the first call performs the shutdown and cleanup sequence exactly once
(appending exactly one copy of the body's action sequence to the log) and
returns the cleanup error (the result of removing the scratch directory
when one exists, success otherwise); every call on an already-closed proxy
performs no action and returns success, so every subsequent call is a
no-op returning nil. -/
theorem C6_close_idempotent (removeAll : String → Option String)
    (p : NetworkProxyState) (h : p.closeOnceDone = false) :
    (p.Close removeAll).2 =
      (if p.socksTmpDir ≠ "" then removeAll p.socksTmpDir else none) ∧
    (p.Close removeAll).1.log = p.log ++ closeBodyLog p ∧
    (p.Close removeAll).1.closeOnceDone = true ∧
    (∀ q : NetworkProxyState, q.closeOnceDone = true →
      q.Close removeAll = (q, none)) := by
  refine ⟨?_, ?_, ?_, ?_⟩
  · simp [NetworkProxyState.Close, h]
  · simp [NetworkProxyState.Close, h]
  · simp [NetworkProxyState.Close, h]
  · intro q hq
    simp [NetworkProxyState.Close, hq]

/-- Witness for C6_close_idempotent at a concrete proxy state with a
scratch directory "/tmp/boxedpy-proxy-1" and a successful RemoveAll. -/
theorem C6_close_idempotent_witness :
    sampleProxyState.closeOnceDone = false ∧
    ((sampleProxyState.Close sampleRemoveAll).2 =
      (if sampleProxyState.socksTmpDir ≠ "" then
        sampleRemoveAll sampleProxyState.socksTmpDir else none) ∧
    (sampleProxyState.Close sampleRemoveAll).1.log =
      sampleProxyState.log ++ closeBodyLog sampleProxyState ∧
    (sampleProxyState.Close sampleRemoveAll).1.closeOnceDone = true ∧
    (∀ q : NetworkProxyState, q.closeOnceDone = true →
      q.Close sampleRemoveAll = (q, none))) :=
  ⟨rfl, C6_close_idempotent sampleRemoveAll sampleProxyState rfl⟩

/-! ## Structural lemmas about the Linux launcher -/

/-- A successful `canonicalPath` comes from the host resolution. -/
theorem canonicalPath_ok (canon : String → Option String) (path c : String)
    (h : canonicalPath canon path = Except.ok c) : canon path = some c := by
  unfold canonicalPath at h
  split at h
  · exact absurd h (by simp)
  · split at h
    · simp only [Except.ok.injEq] at h
      subst h
      assumption
    · exact absurd h (by simp)

/-- `appendMount` either skips the entry or appends exactly its triple and
records its key. -/
theorem appendMount_cases (pe : String → Bool) (a : List String)
    (s : MountSet) (x : BwrapMount) (a2 : List String) (s2 : MountSet)
    (h : appendMount pe a s x = Except.ok (a2, s2)) :
    (a2 = a ∧ s2 = s ∧ s.has x.flag x.target = true) ∨
    (a2 = a ++ [x.flag, x.source, x.target] ∧
      s2 = s.add x.flag x.target ∧ s.has x.flag x.target = false) := by
  unfold appendMount at h
  split at h
  · exact absurd h (by simp)
  · split at h
    · simp only [Except.ok.injEq, Prod.mk.injEq] at h
      left
      exact ⟨h.1.symm, h.2.symm, by assumption⟩
    · split at h
      · exact absurd h (by simp)
      · simp only [Except.ok.injEq, Prod.mk.injEq] at h
        right
        refine ⟨h.1.symm, h.2.symm, ?_⟩
        simp only [Bool.not_eq_true] at *
        assumption

/-- `processMounts` only appends to the argument list. -/
theorem processMounts_append (e : LinuxEnv) (flag : String) :
    ∀ (ms : List Mount) (a : List String) (s : MountSet)
      (a2 : List String) (s2 : MountSet),
      processMounts e flag ms a s = Except.ok (a2, s2) →
      ∃ t, a2 = a ++ t := by
  intro ms
  induction ms with
  | nil =>
    intro a s a2 s2 h
    simp only [processMounts, Except.ok.injEq, Prod.mk.injEq] at h
    exact ⟨[], by simp [h.1]⟩
  | cons m rest ih =>
    intro a s a2 s2 h
    simp only [processMounts] at h
    split at h
    · exact absurd h (by simp)
    · split at h
      · exact absurd h (by simp)
      · split at h
        · exact absurd h (by simp)
        · rename_i args1 seen1 happ
          obtain ⟨t2, ht2⟩ := ih _ _ _ _ h
          rcases appendMount_cases _ _ _ _ _ _ happ with
            ⟨rfl, -, -⟩ | ⟨rfl, -, -⟩
          · exact ⟨t2, ht2⟩
          · rw [List.append_assoc] at ht2
            exact ⟨_, ht2⟩

/-- The caller-mount phase only appends to the argument list. -/
theorem callerMountArgs_append (e : LinuxEnv) (p : Policy)
    (a a2 : List String) (s2 : MountSet)
    (h : callerMountArgs e p a = Except.ok (a2, s2)) :
    ∃ t, a2 = a ++ t := by
  unfold callerMountArgs at h
  split at h
  · exact absurd h (by simp)
  · rename_i args1 seen1 h1
    obtain ⟨t1, ht1⟩ := processMounts_append e "--ro-bind" _ _ _ _ _ h1
    obtain ⟨t2, ht2⟩ := processMounts_append e "--bind" _ _ _ _ _ h
    exact ⟨t1 ++ t2, by simp [ht2, ht1]⟩

/-- Decomposition of a successful `bubblewrapArgs` run: the argument vector
is the bwrap path, then the caller-provided mount bindings, then the fixed
middle block ending in the namespace and lifecycle flags, then the
working-directory binding (possibly skipped as a duplicate), then
`--chdir`, the `--` separator and the program argv. -/
theorem bubblewrapArgs_decomp (e : LinuxEnv) (p : Policy)
    (argv args : List String)
    (h : bubblewrapArgs e p argv = Except.ok args) :
    ∃ bw margs seen2 wdc wdBind,
      e.bwrapPath = some bw ∧
      callerMountArgs e p [bw] = Except.ok (bw :: margs, seen2) ∧
      (∃ w0, e.canonical w0 = some wdc) ∧
      (wdBind = [] ∨ wdBind = ["--bind", wdc, wdc]) ∧
      args = (bw :: margs) ++ bwrapMiddle e p ++ wdBind ++
        ["--chdir", wdc, "--"] ++ argv := by
  unfold bubblewrapArgs at h
  split at h
  · exact absurd h (by simp)
  · rename_i wd hwd
    split at h
    · exact absurd h (by simp)
    · rename_i bw hbw
      split at h
      · exact absurd h (by simp)
      · rename_i args2 seen2 hmounts
        split at h
        · exact absurd h (by simp)
        · rename_i workdir hcanon
          split at h
          · exact absurd h (by simp)
          · rename_i args4 seen4 happ
            simp only [Except.ok.injEq] at h
            obtain ⟨t, ht⟩ := callerMountArgs_append e p [bw] args2 seen2
              hmounts
            subst ht
            rcases appendMount_cases _ _ _ _ _ _ happ with
              ⟨rfl, -, -⟩ | ⟨rfl, -, -⟩
            · refine ⟨bw, t, seen2, workdir, [], hbw, hmounts,
                ⟨wd, canonicalPath_ok _ _ _ hcanon⟩, Or.inl rfl, ?_⟩
              rw [← h]
              simp [List.append_assoc]
            · refine ⟨bw, t, seen2, workdir, ["--bind", workdir, workdir],
                hbw, hmounts,
                ⟨wd, canonicalPath_ok _ _ _ hcanon⟩, Or.inr rfl, ?_⟩
              rw [← h]
              simp [List.append_assoc]

/-- Claim C3 counterexample: for the zero-value policy (with working
directory "/w") on a host where canonicalization is the identity, the
generated vector places the namespace flag "--unshare-all" (index 5) before
the working-directory binding "--bind /w /w" (index 8), so the
working-directory binding does not precede the lifecycle/namespace flags as
the claim requires. -/
theorem C3_counterexample :
    bubblewrapArgs cexEnv cexPolicy ["/bin/echo"] = Except.ok cexArgsList ∧
    cexArgsList.indexOf "--unshare-all" < cexArgsList.indexOf "--bind" := by
  constructor
  · rfl
  · decide

/-- Claim C3 (amended): in every successfully generated bwrap argument
vector, the caller-provided mount bindings come first (right after the
bwrap path), the lifecycle/namespace flags come after them (following the
virtual-filesystem and symlink block), the working-directory binding comes
after the flags (unless skipped as a duplicate of a caller mount), and the
`--` separator follows all of these. -/
theorem C3_ordering (e : LinuxEnv) (p : Policy) (argv args : List String)
    (h : bubblewrapArgs e p argv = Except.ok args) :
    ∃ bw margs seen2 wdc wdBind,
      e.bwrapPath = some bw ∧
      callerMountArgs e p [bw] = Except.ok (bw :: margs, seen2) ∧
      (wdBind = [] ∨ wdBind = ["--bind", wdc, wdc]) ∧
      args = (bw :: margs) ++ ["--proc", "/proc", "--dev", "/dev"] ++
        tmpfsArgs p ++ symlinkArgs e ++ nsFlags p ++ lifecycleFlags p ++
        wdBind ++ ["--chdir", wdc, "--"] ++ argv := by
  obtain ⟨bw, margs, seen2, wdc, wdBind, hbw, hcm, -, hwdB, hargs⟩ :=
    bubblewrapArgs_decomp e p argv args h
  refine ⟨bw, margs, seen2, wdc, wdBind, hbw, hcm, hwdB, ?_⟩
  rw [hargs]
  simp [bwrapMiddle, List.append_assoc]

/-- Witness for C3_ordering at the concrete environment and policy of the
counterexample. -/
theorem C3_ordering_witness :
    bubblewrapArgs cexEnv cexPolicy ["/bin/echo"] = Except.ok cexArgsList ∧
    (∃ bw margs seen2 wdc wdBind,
      cexEnv.bwrapPath = some bw ∧
      callerMountArgs cexEnv cexPolicy [bw] = Except.ok (bw :: margs, seen2) ∧
      (wdBind = [] ∨ wdBind = ["--bind", wdc, wdc]) ∧
      cexArgsList = (bw :: margs) ++ ["--proc", "/proc", "--dev", "/dev"] ++
        tmpfsArgs cexPolicy ++ symlinkArgs cexEnv ++ nsFlags cexPolicy ++
        lifecycleFlags cexPolicy ++ wdBind ++ ["--chdir", wdc, "--"] ++
        ["/bin/echo"]) :=
  ⟨rfl, C3_ordering cexEnv cexPolicy ["/bin/echo"] cexArgsList rfl⟩

/-! ## Flag-membership lemmas for the Linux launcher -/

/-- Every element the mount loops put into the argument list is either
already there, the binding flag, or a canonicalization result. -/
theorem processMounts_mem (e : LinuxEnv) (flag : String) :
    ∀ (ms : List Mount) (a : List String) (s : MountSet)
      (a2 : List String) (s2 : MountSet),
      processMounts e flag ms a s = Except.ok (a2, s2) →
      ∀ x ∈ a2, x ∈ a ∨ x = flag ∨ ∃ s0, e.canonical s0 = some x := by
  intro ms
  induction ms with
  | nil =>
    intro a s a2 s2 h x hx
    simp only [processMounts, Except.ok.injEq, Prod.mk.injEq] at h
    exact Or.inl (h.1 ▸ hx)
  | cons m rest ih =>
    intro a s a2 s2 h x hx
    simp only [processMounts] at h
    split at h
    · exact absurd h (by simp)
    · rename_i canonSrc hsrc
      split at h
      · exact absurd h (by simp)
      · rename_i canonTgt htgt
        split at h
        · exact absurd h (by simp)
        · rename_i args1 seen1 happ
          rcases ih _ _ _ _ h x hx with hx1 | hx1 | hx1
          · rcases appendMount_cases _ _ _ _ _ _ happ with
              ⟨rfl, -, -⟩ | ⟨rfl, -, -⟩
            · exact Or.inl hx1
            · rcases List.mem_append.mp hx1 with hx2 | hx2
              · exact Or.inl hx2
              · simp only [List.mem_cons, List.mem_singleton] at hx2
                rcases hx2 with rfl | rfl | rfl | hfalse
                · exact Or.inr (Or.inl rfl)
                · exact Or.inr (Or.inr
                    ⟨m.Source, canonicalPath_ok _ _ _ hsrc⟩)
                · exact Or.inr (Or.inr
                    ⟨m.Target, canonicalPath_ok _ _ _ htgt⟩)
                · exact absurd hfalse (by simp)
          · exact Or.inr (Or.inl hx1)
          · exact Or.inr (Or.inr hx1)

/-- Every element the caller-mount phase put into the argument list is
either already there, one of the two binding flags, or a canonicalization
result. -/
theorem callerMountArgs_mem (e : LinuxEnv) (p : Policy) (a : List String)
    (a2 : List String) (s2 : MountSet)
    (h : callerMountArgs e p a = Except.ok (a2, s2)) :
    ∀ x ∈ a2, x ∈ a ∨ x = "--ro-bind" ∨ x = "--bind" ∨
      ∃ s0, e.canonical s0 = some x := by
  intro x hx
  unfold callerMountArgs at h
  split at h
  · exact absurd h (by simp)
  · rename_i args1 seen1 h1
    rcases processMounts_mem e "--bind" _ _ _ _ _ h x hx with
      hx1 | hx1 | hx1
    · rcases processMounts_mem e "--ro-bind" _ _ _ _ _ h1 x hx1 with
        hx2 | hx2 | hx2
      · exact Or.inl hx2
      · exact Or.inr (Or.inl hx2)
      · exact Or.inr (Or.inr (Or.inr hx2))
    · exact Or.inr (Or.inr (Or.inl hx1))
    · exact Or.inr (Or.inr (Or.inr hx1))

/-- Elements of the symlink-recreation block: the flag itself or one of
the table's links or targets. -/
theorem symlinkPieces_mem (f : String → Bool) :
    ∀ (l : List (String × String)) (x : String),
      x ∈ (l.map (fun sl =>
        if f sl.1 then ["--symlink", sl.2, sl.1] else [])).flatten →
      x = "--symlink" ∨ ∃ sl ∈ l, x = sl.1 ∨ x = sl.2 := by
  intro l
  induction l with
  | nil => simp
  | cons a rest ih =>
    intro x hx
    simp only [List.map_cons, List.flatten_cons, List.mem_append] at hx
    rcases hx with hx | hx
    · split at hx
      · simp only [List.mem_cons, List.mem_singleton,
          List.not_mem_nil] at hx
        rcases hx with rfl | rfl | rfl | hfalse
        · exact Or.inl rfl
        · exact Or.inr ⟨a, by simp⟩
        · exact Or.inr ⟨a, by simp⟩
        · exact hfalse.elim
      · simp at hx
    · rcases ih x hx with h | ⟨sl, hsl, hx1⟩
      · exact Or.inl h
      · exact Or.inr ⟨sl, List.mem_cons_of_mem a hsl, hx1⟩

/-- None of the four namespace/lifecycle flags coincides with any other
literal token the Linux launcher emits. -/
theorem nsLife_not_aux :
    ∀ φ ∈ nsLifeFlagStrs,
      φ ∉ ["--ro-bind", "--bind", "--proc", "/proc", "--dev", "/dev",
        "--tmpfs", "/tmp", "--chdir", "--symlink", "usr/bin", "/bin",
        "usr/lib", "/lib", "usr/lib64", "/lib64", "usr/sbin", "/sbin"] := by
  decide

/-- "--unshare-all" is generated exactly when shared namespaces are not
allowed. -/
theorem mem_nsFlags_unshare_all (p : Policy) :
    "--unshare-all" ∈ nsFlags p ↔ p.AllowSharedNamespaces = false := by
  cases hs : p.AllowSharedNamespaces <;>
    cases hn : p.AllowNetwork <;> simp [nsFlags, hs, hn]

/-- "--unshare-net" is generated exactly when shared namespaces are allowed
but the network is not. -/
theorem mem_nsFlags_unshare_net (p : Policy) :
    "--unshare-net" ∈ nsFlags p ↔
      p.AllowSharedNamespaces = true ∧ p.AllowNetwork = false := by
  cases hs : p.AllowSharedNamespaces <;>
    cases hn : p.AllowNetwork <;> simp [nsFlags, hs, hn]

/-- The lifecycle flags are absent from the namespace block. -/
theorem nsFlags_no_lifecycle (p : Policy) :
    "--die-with-parent" ∉ nsFlags p ∧ "--new-session" ∉ nsFlags p := by
  cases hs : p.AllowSharedNamespaces <;>
    cases hn : p.AllowNetwork <;> simp [nsFlags, hs, hn]

/-- "--die-with-parent" is generated exactly when parent survival is not
allowed. -/
theorem mem_lifecycle_die (p : Policy) :
    "--die-with-parent" ∈ lifecycleFlags p ↔
      p.AllowParentSurvival = false := by
  cases hp : p.AllowParentSurvival <;>
    cases hc : p.AllowSessionControl <;> simp [lifecycleFlags, hp, hc]

/-- "--new-session" is generated exactly when session control is not
allowed. -/
theorem mem_lifecycle_session (p : Policy) :
    "--new-session" ∈ lifecycleFlags p ↔
      p.AllowSessionControl = false := by
  cases hp : p.AllowParentSurvival <;>
    cases hc : p.AllowSessionControl <;> simp [lifecycleFlags, hp, hc]

/-- The namespace flags are absent from the lifecycle block. -/
theorem lifecycle_no_nsFlags (p : Policy) :
    "--unshare-all" ∉ lifecycleFlags p ∧
    "--unshare-net" ∉ lifecycleFlags p := by
  cases hp : p.AllowParentSurvival <;>
    cases hc : p.AllowSessionControl <;> simp [lifecycleFlags, hp, hc]

/-- Claim C4: in every successfully generated bwrap argument vector, the
options before the `--` separator contain "--unshare-all" iff
`AllowSharedNamespaces` is false, "--unshare-net" iff shared namespaces are
allowed but the network is not, "--die-with-parent" iff
`AllowParentSurvival` is false, and "--new-session" iff
`AllowSessionControl` is false.  The hypotheses `hc` and `hb` record that
host path canonicalization and the bwrap binary path never produce one of
these four flag strings. -/
theorem C4_namespace_lifecycle_flags (e : LinuxEnv) (p : Policy)
    (argv args : List String)
    (h : bubblewrapArgs e p argv = Except.ok args)
    (hc : ∀ s r, e.canonical s = some r → r ∉ nsLifeFlagStrs)
    (hb : ∀ b, e.bwrapPath = some b → b ∉ nsLifeFlagStrs) :
    ∃ opts, args = opts ++ ["--"] ++ argv ∧
      ("--unshare-all" ∈ opts ↔ p.AllowSharedNamespaces = false) ∧
      ("--unshare-net" ∈ opts ↔
        p.AllowSharedNamespaces = true ∧ p.AllowNetwork = false) ∧
      ("--die-with-parent" ∈ opts ↔ p.AllowParentSurvival = false) ∧
      ("--new-session" ∈ opts ↔ p.AllowSessionControl = false) := by
  obtain ⟨bw, margs, seen2, wdc, wdBind, hbw, hcm, ⟨w0, hw0⟩, hwdB, hargs⟩ :=
    bubblewrapArgs_decomp e p argv args h
  have key : ∀ φ ∈ nsLifeFlagStrs,
      (φ ∈ (bw :: margs) ++ bwrapMiddle e p ++ wdBind ++ ["--chdir", wdc] ↔
        φ ∈ nsFlags p ∨ φ ∈ lifecycleFlags p) := by
    intro φ hφ
    have hnotbw : φ ≠ bw := fun hEq => (hb bw hbw) (hEq ▸ hφ)
    have hwdc : φ ≠ wdc := fun hEq => (hc w0 wdc hw0) (hEq ▸ hφ)
    have hA : φ ∉ bw :: margs := by
      intro hm
      rcases List.mem_cons.mp hm with hm1 | hm1
      · exact hnotbw hm1
      · rcases callerMountArgs_mem e p [bw] _ _ hcm φ
          (List.mem_cons_of_mem bw hm1) with h1 | h1 | h1 | ⟨s0, hs0⟩
        · exact hnotbw (List.mem_singleton.mp h1)
        · subst h1
          exact absurd hφ (by decide)
        · subst h1
          exact absurd hφ (by decide)
        · exact (hc s0 _ hs0) hφ
    have hP : φ ∉ (["--proc", "/proc", "--dev", "/dev"] : List String) := by
      intro hm
      simp only [List.mem_cons, List.not_mem_nil, or_false] at hm
      rcases hm with rfl | rfl | rfl | rfl <;> exact absurd hφ (by decide)
    have hT : φ ∉ tmpfsArgs p := by
      intro hm
      unfold tmpfsArgs at hm
      split at hm
      · simp only [List.mem_cons, List.not_mem_nil, or_false] at hm
        rcases hm with rfl | rfl <;> exact absurd hφ (by decide)
      · exact absurd hm (by simp)
    have hS : φ ∉ symlinkArgs e := by
      intro hm
      rcases symlinkPieces_mem e.isSymlink commonSymlinks φ hm with
        h1 | ⟨sl, hsl, h1⟩
      · subst h1
        exact absurd hφ (by decide)
      · fin_cases hsl <;> rcases h1 with rfl | rfl <;>
          exact absurd hφ (by decide)
    have hW : φ ∉ wdBind := by
      intro hm
      rcases hwdB with rfl | rfl
      · exact absurd hm (by simp)
      · simp only [List.mem_cons, List.not_mem_nil, or_false] at hm
        rcases hm with rfl | rfl | rfl
        · exact absurd hφ (by decide)
        · exact hwdc rfl
        · exact hwdc rfl
    have hC2 : φ ∉ (["--chdir", wdc] : List String) := by
      intro hm
      simp only [List.mem_cons, List.not_mem_nil, or_false] at hm
      rcases hm with rfl | rfl
      · exact absurd hφ (by decide)
      · exact hwdc rfl
    simp only [bwrapMiddle, List.append_assoc, List.mem_append, hA, hP, hT,
      hS, hW, hC2, false_or, or_false]
  refine ⟨(bw :: margs) ++ bwrapMiddle e p ++ wdBind ++ ["--chdir", wdc],
    ?_, ?_, ?_, ?_, ?_⟩
  · rw [hargs]
    simp [List.append_assoc]
  · rw [key "--unshare-all" (by decide)]
    simp [mem_nsFlags_unshare_all, (lifecycle_no_nsFlags p).1]
  · rw [key "--unshare-net" (by decide)]
    simp [mem_nsFlags_unshare_net, (lifecycle_no_nsFlags p).2]
  · rw [key "--die-with-parent" (by decide)]
    simp [mem_lifecycle_die, (nsFlags_no_lifecycle p).1]
  · rw [key "--new-session" (by decide)]
    simp [mem_lifecycle_session, (nsFlags_no_lifecycle p).2]

/-- Witness for C4_namespace_lifecycle_flags at a concrete host environment
(canonicalization constantly "/w") and a policy with one read-only mount
and all relaxations off. -/
theorem C4_namespace_lifecycle_flags_witness :
    bubblewrapArgs wEnv wPolicy ["/bin/echo"] = Except.ok
      ["/usr/bin/bwrap", "--ro-bind", "/w", "/w", "--proc", "/proc",
       "--dev", "/dev", "--unshare-all", "--die-with-parent",
       "--new-session", "--bind", "/w", "/w", "--chdir", "/w", "--",
       "/bin/echo"] ∧
    (∀ s r, wEnv.canonical s = some r → r ∉ nsLifeFlagStrs) ∧
    (∀ b, wEnv.bwrapPath = some b → b ∉ nsLifeFlagStrs) ∧
    (∃ opts,
      (["/usr/bin/bwrap", "--ro-bind", "/w", "/w", "--proc", "/proc",
        "--dev", "/dev", "--unshare-all", "--die-with-parent",
        "--new-session", "--bind", "/w", "/w", "--chdir", "/w", "--",
        "/bin/echo"] : List String) = opts ++ ["--"] ++ ["/bin/echo"] ∧
      ("--unshare-all" ∈ opts ↔ wPolicy.AllowSharedNamespaces = false) ∧
      ("--unshare-net" ∈ opts ↔
        wPolicy.AllowSharedNamespaces = true ∧
          wPolicy.AllowNetwork = false) ∧
      ("--die-with-parent" ∈ opts ↔
        wPolicy.AllowParentSurvival = false) ∧
      ("--new-session" ∈ opts ↔ wPolicy.AllowSessionControl = false)) := by
  refine ⟨rfl, ?_, ?_, ?_⟩
  · intro s r hr
    have hrw : r = "/w" := by simpa [wEnv] using hr.symm
    subst hrw
    decide
  · intro b hb
    have hbw : b = "/usr/bin/bwrap" := by simpa [wEnv] using hb.symm
    subst hbw
    decide
  · exact C4_namespace_lifecycle_flags wEnv wPolicy ["/bin/echo"] _ rfl
      (by
        intro s r hr
        have hrw : r = "/w" := by simpa [wEnv] using hr.symm
        subst hrw
        decide)
      (by
        intro b hb
        have hbw : b = "/usr/bin/bwrap" := by simpa [wEnv] using hb.symm
        subst hbw
        decide)

/-! ## Duplicate-freedom of the emitted mount plan (claim C5) -/

/-- Boolean membership on string lists coincides with membership. -/
theorem contains_true_iff (l : List String) (k : String) :
    l.contains k = true ↔ k ∈ l := by
  simp [List.contains, List.elem_eq_mem]

/-- The instrumented `appendMount` agrees with `appendMount` on the
argument list and the mount set. -/
theorem appendMountM_proj (pe : String → Bool) (a : List String)
    (s : MountSet) (x : BwrapMount) :
    appendMount pe a s x =
      (appendMountM pe a s x).map (fun r => (r.1, r.2.1)) := by
  by_cases h1 : (x.source = "" ∨ x.target = "")
  · simp [appendMount, appendMountM, h1, Except.map]
  · by_cases h2 : s.has x.flag x.target
    · simp [appendMount, appendMountM, h1, h2, Except.map]
    · cases h3 : ensurePath pe x.source <;>
        simp [appendMount, appendMountM, h1, h2, h3, Except.map]

/-- What one instrumented `appendMount` step does to the key set: the seen
keys grow monotonically, every emitted entry's key is recorded afterwards
and was absent before, and at most one entry is emitted. -/
theorem appendMountM_inv (pe : String → Bool) (a : List String)
    (s : MountSet) (x : BwrapMount) (a2 : List String) (s2 : MountSet)
    (em : List BwrapMount)
    (h : appendMountM pe a s x = Except.ok (a2, s2, em)) :
    (∀ k, s.entries.contains k = true → s2.entries.contains k = true) ∧
    (∀ m ∈ em, s2.entries.contains (bwrapMountKey m) = true) ∧
    (∀ m ∈ em, s.entries.contains (bwrapMountKey m) = false) ∧
    em.Pairwise (fun m1 m2 => bwrapMountKey m1 ≠ bwrapMountKey m2) := by
  unfold appendMountM at h
  split at h
  · exact absurd h (by simp)
  · split at h
    · simp only [Except.ok.injEq, Prod.mk.injEq] at h
      obtain ⟨-, h2, h3⟩ := h
      subst h2
      subst h3
      exact ⟨fun k hk => hk, by simp, by simp, by simp⟩
    · rename_i hhas
      split at h
      · exact absurd h (by simp)
      · simp only [Except.ok.injEq, Prod.mk.injEq] at h
        obtain ⟨-, h2, h3⟩ := h
        subst h2
        subst h3
        refine ⟨?_, ?_, ?_, by simp⟩
        · intro k hk
          simp only [MountSet.add]
          split
          · exact hk
          · rw [contains_true_iff] at hk ⊢
            simp [List.mem_append, hk]
        · intro m hm
          simp only [List.mem_singleton] at hm
          subst hm
          simp only [MountSet.has] at hhas
          simp only [MountSet.add, hhas, if_false, bwrapMountKey]
          rw [contains_true_iff]
          simp
        · intro m hm
          simp only [List.mem_singleton] at hm
          subst hm
          simp only [MountSet.has, Bool.not_eq_true] at hhas
          simpa [bwrapMountKey] using hhas

/-- The instrumented mount loop agrees with the plain one. -/
theorem processMountsM_proj (e : LinuxEnv) (flag : String) :
    ∀ (ms : List Mount) (a : List String) (s : MountSet)
      (a2 : List String) (s2 : MountSet) (em : List BwrapMount),
      processMountsM e flag ms a s = Except.ok (a2, s2, em) →
      processMounts e flag ms a s = Except.ok (a2, s2) := by
  intro ms
  induction ms with
  | nil =>
    intro a s a2 s2 em h
    simp only [processMountsM, Except.ok.injEq, Prod.mk.injEq] at h
    simp [processMounts, h.1, h.2.1]
  | cons m rest ih =>
    intro a s a2 s2 em h
    simp only [processMountsM] at h
    split at h
    · exact absurd h (by simp)
    · rename_i canonSrc hsrc
      split at h
      · exact absurd h (by simp)
      · rename_i canonTgt htgt
        split at h
        · exact absurd h (by simp)
        · rename_i args1 seen1 em1 happ
          split at h
          · exact absurd h (by simp)
          · rename_i args2 seen2 em2 hrec
            simp only [Except.ok.injEq, Prod.mk.injEq] at h
            obtain ⟨h1, h2, -⟩ := h
            subst h1
            subst h2
            have happ2 : appendMount e.pathExists a s
                { flag := flag, source := canonSrc, target := canonTgt } =
                Except.ok (args1, seen1) := by
              rw [appendMountM_proj, happ]
              rfl
            simp only [processMounts, hsrc, htgt, happ2]
            exact ih _ _ _ _ _ hrec

/-- The instrumented caller-mount phase agrees with the plain one. -/
theorem callerMountArgsM_proj (e : LinuxEnv) (p : Policy)
    (a a2 : List String) (s2 : MountSet) (em : List BwrapMount)
    (h : callerMountArgsM e p a = Except.ok (a2, s2, em)) :
    callerMountArgs e p a = Except.ok (a2, s2) := by
  unfold callerMountArgsM at h
  split at h
  · exact absurd h (by simp)
  · rename_i args1 seen1 em1 h1
    split at h
    · exact absurd h (by simp)
    · rename_i args2 seen2 em2 h2
      simp only [Except.ok.injEq, Prod.mk.injEq] at h
      obtain ⟨hh1, hh2, -⟩ := h
      subst hh1
      subst hh2
      simp only [callerMountArgs, processMountsM_proj e "--ro-bind" _ _ _
        _ _ _ h1]
      exact processMountsM_proj e "--bind" _ _ _ _ _ _ h2

/-- The instrumented bubblewrap generator agrees with the plain one. -/
theorem bubblewrapArgsM_proj (e : LinuxEnv) (p : Policy)
    (argv args : List String) (ms : List BwrapMount)
    (h : bubblewrapArgsM e p argv = Except.ok (args, ms)) :
    bubblewrapArgs e p argv = Except.ok args := by
  unfold bubblewrapArgsM at h
  split at h
  · exact absurd h (by simp)
  · rename_i wd hwd
    split at h
    · exact absurd h (by simp)
    · rename_i bw hbw
      split at h
      · exact absurd h (by simp)
      · rename_i args2 seen2 em2 hcm
        split at h
        · exact absurd h (by simp)
        · rename_i workdir hcanon
          split at h
          · exact absurd h (by simp)
          · rename_i args4 seen4 em4 happ
            simp only [Except.ok.injEq, Prod.mk.injEq] at h
            obtain ⟨h1, -⟩ := h
            subst h1
            have happ2 : appendMount e.pathExists
                (args2 ++ bwrapMiddle e p) seen2
                { flag := "--bind", source := workdir, target := workdir } =
                Except.ok (args4, seen4) := by
              rw [appendMountM_proj, happ]
              rfl
            simp only [bubblewrapArgs, hwd, hbw,
              callerMountArgsM_proj e p _ _ _ _ hcm, hcanon, happ2]

/-- Key-set invariant of the instrumented mount loop: seen keys grow
monotonically; every emitted entry's key is recorded afterwards and was
absent before; the emitted entries have pairwise-distinct keys. -/
theorem processMountsM_inv (e : LinuxEnv) (flag : String) :
    ∀ (ms : List Mount) (a : List String) (s : MountSet)
      (a2 : List String) (s2 : MountSet) (em : List BwrapMount),
      processMountsM e flag ms a s = Except.ok (a2, s2, em) →
      (∀ k, s.entries.contains k = true → s2.entries.contains k = true) ∧
      (∀ m ∈ em, s2.entries.contains (bwrapMountKey m) = true) ∧
      (∀ m ∈ em, s.entries.contains (bwrapMountKey m) = false) ∧
      em.Pairwise (fun m1 m2 => bwrapMountKey m1 ≠ bwrapMountKey m2) := by
  intro ms
  induction ms with
  | nil =>
    intro a s a2 s2 em h
    simp only [processMountsM, Except.ok.injEq, Prod.mk.injEq] at h
    obtain ⟨-, h2, h3⟩ := h
    subst h2
    subst h3
    exact ⟨fun k hk => hk, by simp, by simp, by simp⟩
  | cons m rest ih =>
    intro a s a2 s2 em h
    simp only [processMountsM] at h
    split at h
    · exact absurd h (by simp)
    · split at h
      · exact absurd h (by simp)
      · split at h
        · exact absurd h (by simp)
        · rename_i args1 seen1 em1 happ
          split at h
          · exact absurd h (by simp)
          · rename_i args2 seen2 em2 hrec
            simp only [Except.ok.injEq, Prod.mk.injEq] at h
            obtain ⟨-, h2, h3⟩ := h
            subst h2
            subst h3
            obtain ⟨amono, ain, aout, apw⟩ :=
              appendMountM_inv _ _ _ _ _ _ _ happ
            obtain ⟨rmono, rin, rout, rpw⟩ := ih _ _ _ _ _ hrec
            refine ⟨fun k hk => rmono k (amono k hk), ?_, ?_, ?_⟩
            · intro x hx
              rcases List.mem_append.mp hx with hx1 | hx1
              · exact rmono _ (ain x hx1)
              · exact rin x hx1
            · intro x hx
              rcases List.mem_append.mp hx with hx1 | hx1
              · exact aout x hx1
              · cases hcon : s.entries.contains (bwrapMountKey x) with
                | false => rfl
                | true =>
                  have h1 := amono _ hcon
                  rw [rout x hx1] at h1
                  exact Bool.noConfusion h1
            · rw [List.pairwise_append]
              refine ⟨apw, rpw, ?_⟩
              intro x hx y hy hEq
              have h1 : seen1.entries.contains (bwrapMountKey x) = true :=
                ain x hx
              have h2 : seen1.entries.contains (bwrapMountKey y) = false :=
                rout y hy
              rw [hEq] at h1
              rw [h1] at h2
              exact Bool.noConfusion h2

/-- Key-set invariant of the instrumented caller-mount phase. -/
theorem callerMountArgsM_inv (e : LinuxEnv) (p : Policy) (a a2 : List String)
    (s2 : MountSet) (em : List BwrapMount)
    (h : callerMountArgsM e p a = Except.ok (a2, s2, em)) :
    (∀ m ∈ em, s2.entries.contains (bwrapMountKey m) = true) ∧
    em.Pairwise (fun m1 m2 => bwrapMountKey m1 ≠ bwrapMountKey m2) := by
  unfold callerMountArgsM at h
  split at h
  · exact absurd h (by simp)
  · rename_i args1 seen1 em1 h1
    split at h
    · exact absurd h (by simp)
    · rename_i args2 seen2 em2 h2
      simp only [Except.ok.injEq, Prod.mk.injEq] at h
      obtain ⟨-, hh2, hh3⟩ := h
      subst hh2
      subst hh3
      obtain ⟨-, in1, -, pw1⟩ := processMountsM_inv e "--ro-bind" _ _ _
        _ _ _ h1
      obtain ⟨mono2, in2, out2, pw2⟩ := processMountsM_inv e "--bind" _ _ _
        _ _ _ h2
      constructor
      · intro x hx
        rcases List.mem_append.mp hx with hx1 | hx1
        · exact mono2 _ (in1 x hx1)
        · exact in2 x hx1
      · rw [List.pairwise_append]
        refine ⟨pw1, pw2, ?_⟩
        intro x hx y hy hEq
        have hx2 := in1 x hx
        rw [hEq] at hx2
        rw [out2 y hy] at hx2
        exact Bool.noConfusion hx2

/-- Claim C5: a successful launch-plan generation emits at most one mount
entry per (flag, target) pair — the instrumented generator agrees with
`bubblewrapArgs` on the argument vector, the emitted entries have
pairwise-distinct (flag, target) pairs, and inserting an entry whose
(flag, target) pair is already in the mount set is a no-op. -/
theorem C5_no_duplicate_mounts (e : LinuxEnv) (p : Policy)
    (argv args : List String) (ms : List BwrapMount)
    (h : bubblewrapArgsM e p argv = Except.ok (args, ms)) :
    bubblewrapArgs e p argv = Except.ok args ∧
    ms.Pairwise
      (fun m1 m2 => ¬ (m1.flag = m2.flag ∧ m1.target = m2.target)) ∧
    (∀ (pe : String → Bool) (a : List String) (s : MountSet)
       (x : BwrapMount), x.source ≠ "" → x.target ≠ "" →
       s.has x.flag x.target = true →
       appendMount pe a s x = Except.ok (a, s)) := by
  refine ⟨bubblewrapArgsM_proj _ _ _ _ _ h, ?_, ?_⟩
  · unfold bubblewrapArgsM at h
    split at h
    · exact absurd h (by simp)
    · split at h
      · exact absurd h (by simp)
      · split at h
        · exact absurd h (by simp)
        · rename_i args2 seen2 em2 hcm
          split at h
          · exact absurd h (by simp)
          · split at h
            · exact absurd h (by simp)
            · rename_i args4 seen4 em4 happ
              simp only [Except.ok.injEq, Prod.mk.injEq] at h
              obtain ⟨-, h2⟩ := h
              subst h2
              obtain ⟨cin, cpw⟩ := callerMountArgsM_inv e p _ _ _ _ hcm
              obtain ⟨-, -, aout, apw⟩ :=
                appendMountM_inv _ _ _ _ _ _ _ happ
              have hkeys : (em2 ++ em4).Pairwise
                  (fun m1 m2 => bwrapMountKey m1 ≠ bwrapMountKey m2) := by
                rw [List.pairwise_append]
                refine ⟨cpw, apw, ?_⟩
                intro x hx y hy hEq
                have hx2 := cin x hx
                rw [hEq] at hx2
                rw [aout y hy] at hx2
                exact Bool.noConfusion hx2
              refine hkeys.imp ?_
              intro m1 m2 hne hcon
              exact hne (by
                simp [bwrapMountKey, MountSet.key, hcon.1, hcon.2])
  · intro pe a s x hs ht hhas
    simp [appendMount, hs, ht, hhas]

/-- Witness for C5_no_duplicate_mounts on a policy that lists the same
read-only mount twice: the duplicate is dropped and the three emitted
entries have pairwise-distinct (flag, target) pairs. -/
theorem C5_no_duplicate_mounts_witness :
    bubblewrapArgsM cexEnv dupPolicy ["/bin/echo"] = Except.ok
      (["/usr/bin/bwrap", "--ro-bind", "/usr", "/usr", "--bind", "/data",
        "/data", "--proc", "/proc", "--dev", "/dev", "--unshare-all",
        "--die-with-parent", "--new-session", "--bind", "/w", "/w",
        "--chdir", "/w", "--", "/bin/echo"],
       [{ flag := "--ro-bind", source := "/usr", target := "/usr" },
        { flag := "--bind", source := "/data", target := "/data" },
        { flag := "--bind", source := "/w", target := "/w" }]) ∧
    (bubblewrapArgs cexEnv dupPolicy ["/bin/echo"] = Except.ok
      ["/usr/bin/bwrap", "--ro-bind", "/usr", "/usr", "--bind", "/data",
       "/data", "--proc", "/proc", "--dev", "/dev", "--unshare-all",
       "--die-with-parent", "--new-session", "--bind", "/w", "/w",
       "--chdir", "/w", "--", "/bin/echo"] ∧
    ([{ flag := "--ro-bind", source := "/usr", target := "/usr" },
      { flag := "--bind", source := "/data", target := "/data" },
      { flag := "--bind", source := "/w", target := "/w" }] :
        List BwrapMount).Pairwise
      (fun m1 m2 => ¬ (m1.flag = m2.flag ∧ m1.target = m2.target)) ∧
    (∀ (pe : String → Bool) (a : List String) (s : MountSet)
       (x : BwrapMount), x.source ≠ "" → x.target ≠ "" →
       s.has x.flag x.target = true →
       appendMount pe a s x = Except.ok (a, s))) :=
  ⟨rfl, C5_no_duplicate_mounts cexEnv dupPolicy ["/bin/echo"] _ _ rfl⟩

/-! ## macOS launcher theorems (claims C8 and C10) -/

/-- With `ProvideTmp` off, `seatbeltArgs` reports no temp directory. -/
theorem seatbeltArgs_no_tmp (e : DarwinEnv) (p : Policy)
    (argv : List String) (r : List String × String × String)
    (hp : p.ProvideTmp = false)
    (h : seatbeltArgs e p argv = Except.ok r) : r.2.1 = "" := by
  unfold seatbeltArgs at h
  split at h
  · exact absurd h (by simp)
  · split at h
    · exact absurd h (by simp)
    · split at h
      · exact absurd h (by simp)
      · split at h
        · exact absurd h (by simp)
        · rename_i workdir hcanon
          split at h
          split at h
          split at h
          · exact absurd h (by simp)
          · rename_i tmpDir wset3 wpaths3 rset3 rpaths3 hpt
            simp only [provideTmpDarwin, hp, if_false, Except.ok.injEq,
              Prod.mk.injEq, Bool.false_eq_true] at hpt
            simp only [Except.ok.injEq] at h
            rw [← h]
            exact hpt.1.symm

/-- Claim C8: when `ProvideTmp` is false, the macOS launcher injects no
`TMPDIR` variable — the returned command's environment is the parent
environment verbatim — and every successful `seatbeltArgs` run reports an
empty temp directory (none is created). -/
theorem C8_no_tmp_env (e : DarwinEnv) (envv : List String) (p : Policy)
    (name : String) (arg : List String) (cmd : DarwinCmd)
    (hp : p.ProvideTmp = false)
    (h : commandContextDarwin e envv p name arg = Except.ok cmd) :
    cmd.env = envv ∧
    (∀ r, seatbeltArgs e p (name :: arg) = Except.ok r → r.2.1 = "") := by
  constructor
  · unfold commandContextDarwin at h
    split at h
    · exact absurd h (by simp)
    · rename_i sargs tmpDir workDir hsb
      have htd : tmpDir = "" :=
        seatbeltArgs_no_tmp e p (name :: arg) (sargs, tmpDir, workDir) hp hsb
      subst htd
      simp only [ne_eq, not_true_eq_false, if_neg, ite_false,
        Except.ok.injEq, reduceIte] at h
      rw [← h]
  · intro r hr
    exact seatbeltArgs_no_tmp e p (name :: arg) r hp hr

/-- Witness for C8_no_tmp_env at a concrete macOS environment and policy
with `ProvideTmp` off. -/
theorem C8_no_tmp_env_witness :
    dPolicy.ProvideTmp = false ∧
    commandContextDarwin dEnv ["PATH=/usr/bin"] dPolicy "/venv/bin/python"
      [] = Except.ok c8cmd ∧
    (c8cmd.env = ["PATH=/usr/bin"] ∧
     (∀ r, seatbeltArgs dEnv dPolicy ["/venv/bin/python"] = Except.ok r →
       r.2.1 = "")) :=
  ⟨rfl, rfl, C8_no_tmp_env dEnv ["PATH=/usr/bin"] dPolicy
    "/venv/bin/python" [] c8cmd rfl rfl⟩

/-- The readable-path collection depends only on the mount sources. -/
theorem collectReadOnly_src (canon : String → Option String) :
    ∀ (ms1 ms2 : List Mount),
      ms1.map Mount.Source = ms2.map Mount.Source →
      ∀ (rset : MountSet) (rpaths : List String),
        collectReadOnly canon ms1 rset rpaths =
          collectReadOnly canon ms2 rset rpaths := by
  intro ms1
  induction ms1 with
  | nil =>
    intro ms2 hmap rset rpaths
    cases ms2 with
    | nil => rfl
    | cons b bs => exact absurd hmap (by simp)
  | cons a as ih =>
    intro ms2 hmap rset rpaths
    cases ms2 with
    | nil => exact absurd hmap (by simp)
    | cons b bs =>
      simp only [List.map_cons, List.cons.injEq] at hmap
      obtain ⟨hsrc, htail⟩ := hmap
      simp only [collectReadOnly, hsrc]
      split
      · rfl
      · exact ih bs htail _ _

/-- The writable/readable-path collection depends only on the mount
sources. -/
theorem collectReadWrite_src (canon : String → Option String) :
    ∀ (ms1 ms2 : List Mount),
      ms1.map Mount.Source = ms2.map Mount.Source →
      ∀ (wset : MountSet) (wpaths : List String) (rset : MountSet)
        (rpaths : List String),
        collectReadWrite canon ms1 wset wpaths rset rpaths =
          collectReadWrite canon ms2 wset wpaths rset rpaths := by
  intro ms1
  induction ms1 with
  | nil =>
    intro ms2 hmap wset wpaths rset rpaths
    cases ms2 with
    | nil => rfl
    | cons b bs => exact absurd hmap (by simp)
  | cons a as ih =>
    intro ms2 hmap wset wpaths rset rpaths
    cases ms2 with
    | nil => exact absurd hmap (by simp)
    | cons b bs =>
      simp only [List.map_cons, List.cons.injEq] at hmap
      obtain ⟨hsrc, htail⟩ := hmap
      simp only [collectReadWrite, hsrc]
      split
      · rfl
      · exact ih bs htail _ _ _ _

/-- Claim C10: the macOS launcher's output is independent of the mount
Target fields.  For two policies whose mounts agree on their Source fields
(in order) and that agree on every other policy field, `seatbeltArgs`
produces identical argument lists, profile text, parameter bindings, temp
directory and working directory. -/
theorem C10_target_independent (e : DarwinEnv) (p1 p2 : Policy)
    (argv : List String)
    (hro : p1.ReadOnlyMounts.map Mount.Source =
      p2.ReadOnlyMounts.map Mount.Source)
    (hrw : p1.ReadWriteMounts.map Mount.Source =
      p2.ReadWriteMounts.map Mount.Source)
    (hwd : p1.WorkDir = p2.WorkDir)
    (htmp : p1.ProvideTmp = p2.ProvideTmp)
    (hnet : p1.AllowNetwork = p2.AllowNetwork)
    (hlo : p1.AllowLocalhostOnly = p2.AllowLocalhostOnly)
    (_hsn : p1.AllowSharedNamespaces = p2.AllowSharedNamespaces)
    (_hps : p1.AllowParentSurvival = p2.AllowParentSurvival)
    (_hsc : p1.AllowSessionControl = p2.AllowSessionControl) :
    seatbeltArgs e p1 argv = seatbeltArgs e p2 argv := by
  have h1 : darwinWd e p1 = darwinWd e p2 := by
    simp [darwinWd, hwd]
  have h2 : collectReadOnly e.canonical p1.ReadOnlyMounts newMountSet [] =
      collectReadOnly e.canonical p2.ReadOnlyMounts newMountSet [] :=
    collectReadOnly_src e.canonical _ _ hro _ _
  have h3 : ∀ (wset : MountSet) (wpaths : List String) (rset : MountSet)
      (rpaths : List String),
      collectReadWrite e.canonical p1.ReadWriteMounts
          wset wpaths rset rpaths =
        collectReadWrite e.canonical p2.ReadWriteMounts
          wset wpaths rset rpaths :=
    fun wset wpaths rset rpaths =>
      collectReadWrite_src e.canonical _ _ hrw wset wpaths rset rpaths
  have h4 : ∀ (wset : MountSet) (wpaths : List String) (rset : MountSet)
      (rpaths : List String),
      provideTmpDarwin e p1 wset wpaths rset rpaths =
        provideTmpDarwin e p2 wset wpaths rset rpaths := by
    intro wset wpaths rset rpaths
    simp [provideTmpDarwin, htmp]
  have h5 : networkRules p1 = networkRules p2 := by
    simp [networkRules, hnet, hlo]
  simp only [seatbeltArgs, h1, h2, h3, h4, h5]

/-- Witness for C10_target_independent: `dPolicy` and `dPolicyAltTargets`
differ only in their mount Target fields and yield identical seatbelt
invocations. -/
theorem C10_target_independent_witness :
    dPolicy.ReadOnlyMounts.map Mount.Source =
      dPolicyAltTargets.ReadOnlyMounts.map Mount.Source ∧
    dPolicy.ReadWriteMounts.map Mount.Source =
      dPolicyAltTargets.ReadWriteMounts.map Mount.Source ∧
    dPolicy.WorkDir = dPolicyAltTargets.WorkDir ∧
    dPolicy.ProvideTmp = dPolicyAltTargets.ProvideTmp ∧
    dPolicy.AllowNetwork = dPolicyAltTargets.AllowNetwork ∧
    dPolicy.AllowLocalhostOnly = dPolicyAltTargets.AllowLocalhostOnly ∧
    dPolicy.AllowSharedNamespaces =
      dPolicyAltTargets.AllowSharedNamespaces ∧
    dPolicy.AllowParentSurvival = dPolicyAltTargets.AllowParentSurvival ∧
    dPolicy.AllowSessionControl = dPolicyAltTargets.AllowSessionControl ∧
    seatbeltArgs dEnv dPolicy ["/venv/bin/python"] =
      seatbeltArgs dEnv dPolicyAltTargets ["/venv/bin/python"] :=
  ⟨rfl, rfl, rfl, rfl, rfl, rfl, rfl, rfl, rfl,
    C10_target_independent dEnv dPolicy dPolicyAltTargets
      ["/venv/bin/python"] rfl rfl rfl rfl rfl rfl rfl rfl rfl⟩
